import Mathlib

/-!
Verification of the Amazon PPC optimizer (`src/app.py`).

The embedding follows the source. Monetary/metric quantities (orders,
sales, spend, ROAS, thresholds) are modelled as rationals; a pandas
DataFrame group carrying its integer index is modelled as a
`List (Nat × Row)`; `Series.idxmax` (which returns the first index
attaining the maximum) is modelled by `argmaxFirst`; reason strings,
which in the source are emoji-decorated formatted strings, are modelled
by an inductive `Reason` carrying the annotated data (the improvement
value, resp. the challenger's order count).
-/

/-- Normalized match type, the codomain of `normalize_match_type`
(`src/app.py:63`): EXACT / PHRASE / BROAD / AUTO_OTHER (for the source's
'AUTO/OTHER') / UNKNOWN. -/
inductive MatchType where
  | EXACT : MatchType
  | PHRASE : MatchType
  | BROAD : MatchType
  | AUTO_OTHER : MatchType
  | UNKNOWN : MatchType
deriving DecidableEq

/-- One aggregated row of `df_agg` (`src/app.py:148-165`): the renamed
columns `search_term`, `campaign`, `ad_group`, `norm_match`,
`orders_val`, `sales_val`, `spend_val`. -/
structure Row where
  search_term : String
  campaign : String
  ad_group : String
  norm_match : MatchType
  orders_val : ℚ
  sales_val : ℚ
  spend_val : ℚ
deriving DecidableEq

/-- `df_agg['calculated_roas']` (`src/app.py:168`):
`sales_val / spend_val if spend_val > 0 else 0`. -/
def calculated_roas (r : Row) : ℚ :=
  if r.spend_val > 0 then r.sales_val / r.spend_val else 0

/-- Model of pandas `Series.idxmax` on a group: the first entry (in
iteration order) attaining the maximum of `f`, `none` on an empty group
(where pandas raises). -/
def argmaxFirst (f : Row → ℚ) : List (Nat × Row) → Option (Nat × Row)
  | [] => none
  | p :: ps => some (ps.foldl (fun q r => if f r.2 > f q.2 then r else q) p)

/-- The reason component of `determine_winner`'s result. The source
returns formatted strings; each constructor records the string's
identity and its annotated datum. -/
inductive Reason where
  | bestSalesRoas : Reason
  | efficientChoice : ℚ → Reason
  | volLeaderInsufficientOrders : ℚ → Reason
  | volumeLeader : Reason
deriving DecidableEq

/-- The improvement computed at `src/app.py:98-101`: `999` when the
sales leader's ROAS is zero, else the relative ROAS improvement. -/
def improvement_of (sales_leader roas_leader : Row) : ℚ :=
  if calculated_roas sales_leader = 0 then 999
  else (calculated_roas roas_leader - calculated_roas sales_leader) / calculated_roas sales_leader

/-- `determine_winner(group, improvement_thresh, min_orders)`
(`src/app.py:71-113`): picks the sales leader and the ROAS leader by
`idxmax`; returns immediately on identical indices; otherwise compares
the improvement against `improvement_thresh / 100` and the ROAS
leader's orders against `min_orders`. `none` models the exception
pandas raises on an empty group. -/
def determine_winner (group : List (Nat × Row)) (improvement_thresh min_orders : ℚ) :
    Option (Nat × Reason) :=
  match argmaxFirst (fun r => r.sales_val) group, argmaxFirst calculated_roas group with
  | some sales_leader, some roas_leader =>
    if sales_leader.1 = roas_leader.1 then
      some (sales_leader.1, Reason.bestSalesRoas)
    else
      let improvement := improvement_of sales_leader.2 roas_leader.2
      let threshold_decimal := improvement_thresh / 100
      if improvement ≥ threshold_decimal ∧ roas_leader.2.orders_val ≥ min_orders then
        some (roas_leader.1, Reason.efficientChoice improvement)
      else
        if improvement ≥ threshold_decimal then
          some (sales_leader.1, Reason.volLeaderInsufficientOrders roas_leader.2.orders_val)
        else
          some (sales_leader.1, Reason.volumeLeader)
  | _, _ => none

-- Scenario A from the decision-logic documentation: C1 roas 2, C2 roas 4,
-- threshold 100 %, min orders 2 → C2 wins with +100 % improvement.
def rowScA1 : Row := ⟨"k", "C1", "G1", MatchType.BROAD, 5, 100, 50⟩
def rowScA2 : Row := ⟨"k", "C2", "G2", MatchType.BROAD, 3, 40, 10⟩
def groupScA : List (Nat × Row) := [(0, rowScA1), (1, rowScA2)]

example : determine_winner groupScA 100 2 = some (1, Reason.efficientChoice 1) := by
  norm_num [determine_winner, argmaxFirst, improvement_of, calculated_roas, groupScA,
    rowScA1, rowScA2]

example : determine_winner groupScA 100 4 =
    some (0, Reason.volLeaderInsufficientOrders 3) := by
  norm_num [determine_winner, argmaxFirst, improvement_of, calculated_roas, groupScA,
    rowScA1, rowScA2]

example : determine_winner groupScA 150 2 = some (0, Reason.volumeLeader) := by
  norm_num [determine_winner, argmaxFirst, improvement_of, calculated_roas, groupScA,
    rowScA1, rowScA2]

/-- The result of `argmaxFirst` is an element of the group. -/
theorem argmaxFirst_mem {f : Row → ℚ} {l : List (Nat × Row)} {p : Nat × Row}
    (h : argmaxFirst f l = some p) : p ∈ l := by
  match l with
  | [] => simp [argmaxFirst] at h
  | q :: qs =>
    simp only [argmaxFirst, Option.some.injEq] at h
    subst h
    induction qs generalizing q with
    | nil => simp
    | cons r rs ih =>
      simp only [List.foldl_cons]
      by_cases hc : f r.2 > f q.2
      · simp only [if_pos hc]
        exact List.mem_cons_of_mem _ (ih r)
      · simp only [if_neg hc]
        rcases List.mem_cons.mp (ih q) with h1 | h1
        · exact List.mem_cons.mpr (Or.inl h1)
        · exact List.mem_cons_of_mem _ (List.mem_cons_of_mem _ h1)

/-- `argmaxFirst` succeeds exactly on nonempty groups. -/
theorem argmaxFirst_isSome {f : Row → ℚ} {l : List (Nat × Row)} (h : l ≠ []) :
    ∃ p, argmaxFirst f l = some p := by
  match l with
  | [] => exact absurd rfl h
  | q :: qs => exact ⟨_, rfl⟩

/-- The winner index returned by `determine_winner` is the index of some
row of the group. -/
theorem determine_winner_mem {g : List (Nat × Row)} {T m : ℚ} {w : Nat} {r : Reason}
    (h : determine_winner g T m = some (w, r)) : w ∈ g.map Prod.fst := by
  unfold determine_winner at h
  rcases hs : argmaxFirst (fun r => r.sales_val) g with _ | sl <;> rw [hs] at h
  · simp at h
  rcases hr : argmaxFirst calculated_roas g with _ | rl <;> rw [hr] at h
  · simp at h
  have hsl : sl ∈ g := argmaxFirst_mem hs
  have hrl : rl ∈ g := argmaxFirst_mem hr
  simp only at h
  split_ifs at h with h1 h2 h3 <;>
    simp only [Option.some.injEq, Prod.mk.injEq] at h <;>
    rcases h with ⟨h, -⟩ <;> subst h
  · exact List.mem_map_of_mem Prod.fst hsl
  · exact List.mem_map_of_mem Prod.fst hrl
  · exact List.mem_map_of_mem Prod.fst hsl
  · exact List.mem_map_of_mem Prod.fst hsl

/-- C1: when the sales leader and the ROAS leader are distinct rows and
the sales leader's ROAS is positive, `determine_winner` follows the
three-way rule: improvement at least `improvement_thresh / 100` with
enough orders gives the ROAS leader the "Efficient Choice" reason
annotated with the improvement; improvement at threshold but too few
orders gives the sales leader the reason noting the challenger's order
count; otherwise the sales leader wins with the plain "Volume Leader"
reason. -/
theorem determine_winner_distinct_leaders_cases
    (g : List (Nat × Row)) (T m : ℚ) (sl rl : Nat × Row)
    (hs : argmaxFirst (fun r => r.sales_val) g = some sl)
    (hr : argmaxFirst calculated_roas g = some rl)
    (hne : sl.1 ≠ rl.1)
    (hpos : 0 < calculated_roas sl.2) :
    (T / 100 ≤ (calculated_roas rl.2 - calculated_roas sl.2) / calculated_roas sl.2 ∧
        m ≤ rl.2.orders_val →
      determine_winner g T m =
        some (rl.1, Reason.efficientChoice
          ((calculated_roas rl.2 - calculated_roas sl.2) / calculated_roas sl.2))) ∧
    (T / 100 ≤ (calculated_roas rl.2 - calculated_roas sl.2) / calculated_roas sl.2 ∧
        rl.2.orders_val < m →
      determine_winner g T m =
        some (sl.1, Reason.volLeaderInsufficientOrders rl.2.orders_val)) ∧
    ((calculated_roas rl.2 - calculated_roas sl.2) / calculated_roas sl.2 < T / 100 →
      determine_winner g T m = some (sl.1, Reason.volumeLeader)) := by
  have h0 : calculated_roas sl.2 ≠ 0 := ne_of_gt hpos
  unfold determine_winner
  rw [hs, hr]
  simp only [if_neg hne, improvement_of, if_neg h0, ge_iff_le]
  refine ⟨fun h => ?_, fun h => ?_, fun h => ?_⟩
  · rw [if_pos ⟨h.1, h.2⟩]
  · rw [if_neg (fun hc => absurd hc.2 (not_le.mpr h.2)), if_pos h.1]
  · rw [if_neg (fun hc => absurd hc.1 (not_le.mpr h)), if_neg (not_le.mpr h)]

/-- Witness for C1: Scenario A — ROAS 2 vs 4, threshold 100 %, minimum
2 orders; improvement 1 passes and the challenger has 3 orders, so the
ROAS leader (index 1) wins as the Efficient Choice. -/
theorem determine_winner_distinct_leaders_cases_witness :
    determine_winner groupScA 100 2 = some (1, Reason.efficientChoice 1) := by
  have h := (determine_winner_distinct_leaders_cases groupScA 100 2 (0, rowScA1) (1, rowScA2)
      (by norm_num [argmaxFirst, groupScA, rowScA1, rowScA2])
      (by norm_num [argmaxFirst, groupScA, rowScA1, rowScA2, calculated_roas])
      (by norm_num)
      (by norm_num [calculated_roas, rowScA1])).1
      ⟨by norm_num [calculated_roas, rowScA1, rowScA2], by norm_num [rowScA2]⟩
  rw [h]
  norm_num [calculated_roas, rowScA1, rowScA2]

/-- C2: when the same row (by index) is both sales leader and ROAS
leader, `determine_winner` returns it with the "Best Sales & ROAS"
reason, for every threshold and minimum-order value, short-circuiting
the improvement and order-count checks. -/
theorem determine_winner_same_leader
    (g : List (Nat × Row)) (T m : ℚ) (sl rl : Nat × Row)
    (hs : argmaxFirst (fun r => r.sales_val) g = some sl)
    (hr : argmaxFirst calculated_roas g = some rl)
    (heq : sl.1 = rl.1) :
    determine_winner g T m = some (sl.1, Reason.bestSalesRoas) := by
  unfold determine_winner
  rw [hs, hr]
  simp [heq]

-- A group whose first row leads both sales and ROAS (roas 10 vs 1).
def rowScD1 : Row := ⟨"k", "C1", "G1", MatchType.BROAD, 5, 100, 10⟩
def rowScD2 : Row := ⟨"k", "C2", "G2", MatchType.BROAD, 1, 50, 50⟩
def groupScD : List (Nat × Row) := [(0, rowScD1), (1, rowScD2)]

/-- Witness for C2: row 0 leads both sales and ROAS; it wins with
"Best Sales & ROAS" even at an extreme threshold and minimum-order
setting. -/
theorem determine_winner_same_leader_witness :
    determine_winner groupScD 200 1000000 = some (0, Reason.bestSalesRoas) := by
  exact determine_winner_same_leader groupScD 200 1000000 (0, rowScD1) (0, rowScD1)
    (by norm_num [argmaxFirst, groupScD, rowScD1, rowScD2])
    (by norm_num [argmaxFirst, groupScD, rowScD1, rowScD2, calculated_roas])
    rfl

/-- Shared lemma: with distinct leaders and a zero-ROAS sales leader the
improvement is the literal `999`, which clears the threshold exactly
when `improvement_thresh / 100 ≤ 999`, i.e. `improvement_thresh ≤
99900`; the ROAS leader then wins when its orders suffice. -/
theorem winner_of_zero_sales_roas
    {g : List (Nat × Row)} {T m : ℚ} {sl rl : Nat × Row}
    (hs : argmaxFirst (fun r => r.sales_val) g = some sl)
    (hr : argmaxFirst calculated_roas g = some rl)
    (hne : sl.1 ≠ rl.1)
    (h0 : calculated_roas sl.2 = 0)
    (hT : T ≤ 99900)
    (hord : m ≤ rl.2.orders_val) :
    determine_winner g T m = some (rl.1, Reason.efficientChoice 999) := by
  unfold determine_winner
  rw [hs, hr]
  simp only [if_neg hne, improvement_of, if_pos h0, ge_iff_le]
  rw [if_pos (And.intro (by linarith) hord)]

-- Scenario B: the sales leader spends nothing (ROAS 0), the other row
-- has ROAS 2.
def rowScB1 : Row := ⟨"k", "C1", "G1", MatchType.BROAD, 5, 100, 0⟩
def rowScB2 : Row := ⟨"k", "C2", "G2", MatchType.BROAD, 1, 10, 5⟩
def groupScB : List (Nat × Row) := [(0, rowScB1), (1, rowScB2)]

/-- Counterexample to C3 as stated: in Scenario B the sales leader's
ROAS is zero, the ROAS leader's ROAS is positive and its single order
meets `min_orders = 1`, yet at threshold percentage 100000 the
improvement check fails (`999 < 100000 / 100`) and the sales leader
wins — the improvement is the literal 999, not a value exceeding every
finite threshold. -/
theorem zero_roas_not_unbounded_counterexample :
    argmaxFirst (fun r => r.sales_val) groupScB = some (0, rowScB1) ∧
    argmaxFirst calculated_roas groupScB = some (1, rowScB2) ∧
    calculated_roas rowScB1 = 0 ∧
    0 < calculated_roas rowScB2 ∧
    (1 : ℚ) ≤ rowScB2.orders_val ∧
    determine_winner groupScB 100000 1 = some (0, Reason.volumeLeader) := by
  norm_num [argmaxFirst, groupScB, rowScB1, rowScB2, calculated_roas, determine_winner,
    improvement_of]

/-- C3 (amended): with distinct leaders, a zero-ROAS sales leader and a
positive-ROAS leader, the improvement is the literal `999`, so for
every threshold percentage at most 99900 — in particular throughout the
UI slider range [30, 200] — the improvement check passes and the ROAS
leader wins provided its orders reach `min_orders`. -/
theorem determine_winner_zero_roas_999
    (g : List (Nat × Row)) (T m : ℚ) (sl rl : Nat × Row)
    (hs : argmaxFirst (fun r => r.sales_val) g = some sl)
    (hr : argmaxFirst calculated_roas g = some rl)
    (hne : sl.1 ≠ rl.1)
    (h0 : calculated_roas sl.2 = 0)
    (hrl : 0 < calculated_roas rl.2)
    (hT : T ≤ 99900)
    (hord : m ≤ rl.2.orders_val) :
    determine_winner g T m = some (rl.1, Reason.efficientChoice 999) :=
  winner_of_zero_sales_roas hs hr hne h0 hT hord

/-- Witness for C3 (amended): Scenario B at the slider maximum
(threshold 200 %, minimum 1 order): the ROAS leader wins with the 999
improvement annotation. -/
theorem determine_winner_zero_roas_999_witness :
    determine_winner groupScB 200 1 = some (1, Reason.efficientChoice 999) := by
  exact determine_winner_zero_roas_999 groupScB 200 1 (0, rowScB1) (1, rowScB2)
    (by norm_num [argmaxFirst, groupScB, rowScB1, rowScB2])
    (by norm_num [argmaxFirst, groupScB, rowScB1, rowScB2, calculated_roas])
    (by norm_num)
    (by norm_num [calculated_roas, rowScB1])
    (by norm_num [calculated_roas, rowScB2])
    (by norm_num)
    (by norm_num [rowScB2])

/-- C9: in a group whose rows all have ROAS 0, with distinct sales and
ROAS leaders, the zero-denominator branch still fires: the improvement
is set to 999, and — for any threshold within the UI slider's range
`[30, 200]` (`src/app.py:46-53`) — the ROAS leader wins with the
"Efficient Choice" reason whenever its orders reach `min_orders`, even
though it has no actual ROAS advantage. -/
theorem determine_winner_all_zero_roas
    (g : List (Nat × Row)) (T m : ℚ) (sl rl : Nat × Row)
    (hs : argmaxFirst (fun r => r.sales_val) g = some sl)
    (hr : argmaxFirst calculated_roas g = some rl)
    (hne : sl.1 ≠ rl.1)
    (hall : ∀ p ∈ g, calculated_roas p.2 = 0)
    (hT1 : 30 ≤ T) (hT2 : T ≤ 200)
    (hord : m ≤ rl.2.orders_val) :
    determine_winner g T m = some (rl.1, Reason.efficientChoice 999) :=
  winner_of_zero_sales_roas hs hr hne (hall sl (argmaxFirst_mem hs)) (by linarith) hord

-- A group whose rows all have ROAS 0 (zero sales resp. zero spend) and
-- whose sales leader is not the first row, so the two leaders differ.
def rowScE1 : Row := ⟨"k", "C1", "G1", MatchType.BROAD, 3, 0, 4⟩
def rowScE2 : Row := ⟨"k", "C2", "G2", MatchType.BROAD, 5, 10, 0⟩
def groupScE : List (Nat × Row) := [(0, rowScE1), (1, rowScE2)]

/-- Witness for C9: both rows have ROAS 0; the sales leader is row 1,
the ROAS leader defaults to row 0, whose 3 orders meet `min_orders =
2`, so row 0 wins as "Efficient Choice" with the 999 annotation. -/
theorem determine_winner_all_zero_roas_witness :
    determine_winner groupScE 100 2 = some (0, Reason.efficientChoice 999) := by
  exact determine_winner_all_zero_roas groupScE 100 2 (1, rowScE2) (0, rowScE1)
    (by norm_num [argmaxFirst, groupScE, rowScE1, rowScE2])
    (by norm_num [argmaxFirst, groupScE, rowScE1, rowScE2, calculated_roas])
    (by norm_num)
    (by intro p hp
        simp only [groupScE, List.mem_cons, List.not_mem_nil, or_false] at hp
        rcases hp with h | h <;> subst h <;> norm_num [calculated_roas, rowScE1, rowScE2])
    (by norm_num)
    (by norm_num)
    (by norm_num [rowScE1])

/-- C4: `determine_winner` is monotone in the threshold. First, a lower
threshold keeps the improvement check passing. Consequently, if the
ROAS leader is the winner at threshold `T`, it is still the winner at
every threshold `T' ≤ T`; equivalently, raising the threshold never
flips the winner from the sales leader to the ROAS leader. -/
theorem determine_winner_threshold_monotone
    (g : List (Nat × Row)) (T tLow m : ℚ) (hT : tLow ≤ T) :
    (∀ sl rl : Row, T / 100 ≤ improvement_of sl rl → tLow / 100 ≤ improvement_of sl rl) ∧
    (∀ rl : Nat × Row, argmaxFirst calculated_roas g = some rl →
      ∀ r : Reason, determine_winner g T m = some (rl.1, r) →
        ∃ r2, determine_winner g tLow m = some (rl.1, r2)) := by
  constructor
  · intro sl rl h
    have : tLow / 100 ≤ T / 100 := by linarith
    linarith
  · intro rl hr r hwin
    unfold determine_winner at hwin ⊢
    rcases hs : argmaxFirst (fun r => r.sales_val) g with _ | sl
    · rw [hs, hr] at hwin
      simp at hwin
    · rw [hs, hr] at hwin
      rw [hr]
      simp only at hwin ⊢
      by_cases heq : sl.1 = rl.1
      · rw [if_pos heq] at hwin ⊢
        exact ⟨Reason.bestSalesRoas, by rw [heq]⟩
      · rw [if_neg heq] at hwin ⊢
        set I := improvement_of sl.2 rl.2 with hI
        by_cases h1 : I ≥ T / 100 ∧ rl.2.orders_val ≥ m
        · have h1' : I ≥ tLow / 100 ∧ rl.2.orders_val ≥ m := ⟨by linarith [h1.1], h1.2⟩
          rw [if_pos h1']
          exact ⟨Reason.efficientChoice I, rfl⟩
        · rw [if_neg h1] at hwin
          exfalso
          split_ifs at hwin <;>
          · rw [Option.some.injEq, Prod.mk.injEq] at hwin
            exact absurd hwin.1 heq

/-- Witness for C4: in Scenario A the ROAS leader (index 1) wins at
threshold 100 %; by monotonicity it still wins at the lower
threshold 50 %. -/
theorem determine_winner_threshold_monotone_witness :
    ∃ r2, determine_winner groupScA 50 2 = some (1, r2) := by
  exact (determine_winner_threshold_monotone groupScA 100 50 2 (by norm_num)).2
    (1, rowScA2)
    (by norm_num [argmaxFirst, groupScA, rowScA1, rowScA2, calculated_roas])
    (Reason.efficientChoice 1)
    (by norm_num [determine_winner, argmaxFirst, improvement_of, calculated_roas,
      groupScA, rowScA1, rowScA2])

/-! ## Cannibalization orchestrator (tab 1, `src/app.py:179-214`) -/

/-- Status assigned to each row of a conflict group
(`src/app.py:202`). -/
inductive Status where
  | KEEP : Status
  | NEGATE : Status
deriving DecidableEq

/-- The reason column of the action table (`src/app.py:213`): the
engine's reason on the winner row, the generic "Lower Efficiency/Vol"
text on every other row. -/
inductive OutReason where
  | engine : Reason → OutReason
  | lowerEfficiencyVol : OutReason
deriving DecidableEq

/-- One row of the orchestrator's action table
(`src/app.py:204-214`). -/
structure ResultRow where
  search_term : String
  campaign : String
  ad_group : String
  spend : ℚ
  sales : ℚ
  orders : ℚ
  roas : ℚ
  status : Status
  reason : OutReason
deriving DecidableEq

/-- `sales_df` (`src/app.py:184`): the aggregated rows with
`orders_val > 0`, keeping their dataframe index. -/
def sales_df (rows : List Row) : List (Nat × Row) :=
  rows.enum.filter (fun p => p.2.orders_val > 0)

/-- `subset` for one term (`src/app.py:195`): the rows of `sales_df`
whose `search_term` equals `term` exactly. -/
def subsetFor (rows : List Row) (term : String) : List (Nat × Row) :=
  (sales_df rows).filter (fun p => p.2.search_term = term)

/-- `cannibal_terms` (`src/app.py:187-188`): the distinct search terms
of `sales_df` whose group has more than one row. -/
def cannibal_terms (rows : List Row) : List String :=
  ((sales_df rows).map (fun p => p.2.search_term)).dedup.filter
    (fun t => 1 < (subsetFor rows t).length)

/-- The annotation of one group row (`src/app.py:200-214`): KEEP and
the engine's reason on the winner index, NEGATE and the generic reason
otherwise. -/
def annotate (term : String) (win_idx : Nat) (reason : Reason) (p : Nat × Row) : ResultRow :=
  ⟨term, p.2.campaign, p.2.ad_group, p.2.spend_val, p.2.sales_val, p.2.orders_val,
    calculated_roas p.2,
    if p.1 = win_idx then Status.KEEP else Status.NEGATE,
    if p.1 = win_idx then OutReason.engine reason else OutReason.lowerEfficiencyVol⟩

/-- The block of result rows one conflict group contributes
(`src/app.py:194-214`): the engine is invoked once on the group's
subset and every subset row is annotated against the winner index. -/
def resultsForTerm (rows : List Row) (T m : ℚ) (term : String) : List ResultRow :=
  match determine_winner (subsetFor rows term) T m with
  | none => []
  | some (win_idx, reason) => (subsetFor rows term).map (annotate term win_idx reason)

/-- The flat action table (`src/app.py:193-216`): the concatenation of
every conflict group's block. -/
def cannibalization_results (rows : List Row) (T m : ℚ) : List ResultRow :=
  (cannibal_terms rows).flatMap (resultsForTerm rows T m)

/-- The cannibalization tab's outcome (`src/app.py:190-216`): a
success signal with no rows when no conflict group exists, else the
action table. -/
inductive CannibalOutput where
  | successNoConflicts : CannibalOutput
  | table : List ResultRow → CannibalOutput
deriving DecidableEq

/-- `src/app.py:190-192`: `if not cannibal_terms: st.success(...)`. -/
def cannibalization_tab (rows : List Row) (T m : ℚ) : CannibalOutput :=
  if cannibal_terms rows = [] then CannibalOutput.successNoConflicts
  else CannibalOutput.table (cannibalization_results rows T m)

/-- Membership in a group's subset: an indexed row with positive
orders and the group's exact search term. -/
theorem mem_subsetFor (rows : List Row) (term : String) (p : Nat × Row) :
    p ∈ subsetFor rows term ↔
      p ∈ rows.enum ∧ p.2.orders_val > 0 ∧ p.2.search_term = term := by
  simp only [subsetFor, sales_df, List.mem_filter, decide_eq_true_eq, and_assoc]

/-- A term is a cannibal term exactly when its group has more than one
row. -/
theorem mem_cannibal_terms (rows : List Row) (term : String) :
    term ∈ cannibal_terms rows ↔ 1 < (subsetFor rows term).length := by
  simp only [cannibal_terms, List.mem_filter, List.mem_dedup, List.mem_map,
    decide_eq_true_eq]
  constructor
  · rintro ⟨-, h⟩
    exact h
  · intro h
    refine ⟨?_, h⟩
    have hne : subsetFor rows term ≠ [] := by
      intro he
      rw [he] at h
      simp at h
    rcases List.exists_mem_of_ne_nil _ hne with ⟨p, hp⟩
    have hm := (mem_subsetFor rows term p).mp hp
    refine ⟨p, ?_, hm.2.2⟩
    simp [sales_df, List.mem_filter, hm.1, hm.2.1]

/-- The dataframe indices inside one group's subset are pairwise
distinct (the aggregated table has a unique index per row). -/
theorem subsetFor_fst_nodup (rows : List Row) (term : String) :
    ((subsetFor rows term).map Prod.fst).Nodup := by
  have h1 : List.Sublist (subsetFor rows term) rows.enum :=
    (List.filter_sublist _).trans (List.filter_sublist _)
  have h2 : List.Sublist ((subsetFor rows term).map Prod.fst) (rows.enum.map Prod.fst) :=
    h1.map Prod.fst
  rw [List.enum_map_fst] at h2
  exact (List.nodup_range rows.length).sublist h2

/-- A list of indexed rows with pairwise-distinct indices holds exactly
one row carrying a given present index. -/
theorem countP_fst_eq_one {l : List (Nat × Row)} {w : Nat}
    (hnd : (l.map Prod.fst).Nodup) (hm : w ∈ l.map Prod.fst) :
    l.countP (fun p => p.1 = w) = 1 := by
  induction l with
  | nil => simp at hm
  | cons p ps ih =>
    rw [List.map_cons, List.nodup_cons] at hnd
    rw [List.map_cons, List.mem_cons] at hm
    rw [List.countP_cons]
    by_cases hpw : p.1 = w
    · have hnotin : w ∉ ps.map Prod.fst := hpw ▸ hnd.1
      have hz : ps.countP (fun p => p.1 = w) = 0 := by
        rw [List.countP_eq_zero]
        intro q hq
        simp only [decide_eq_true_eq]
        intro hqw
        exact hnotin (hqw ▸ List.mem_map_of_mem Prod.fst hq)
      simp [hz, hpw]
    · rcases hm with h | h
      · exact absurd h.symm hpw
      · have := ih hnd.2 h
        simp [this, hpw]

/-- Rows matching an index and rows missing it split a list's
length. -/
theorem countP_fst_split (l : List (Nat × Row)) (w : Nat) :
    l.countP (fun p => decide (p.1 = w)) + l.countP (fun p => !decide (p.1 = w)) =
      l.length := by
  induction l with
  | nil => simp
  | cons p ps ih =>
    rw [List.countP_cons, List.countP_cons, List.length_cons]
    by_cases h : p.1 = w <;> simp [h] <;> omega

/-- On a nonempty group `determine_winner` produces a winner. -/
theorem determine_winner_isSome {g : List (Nat × Row)} (hne : g ≠ []) (T m : ℚ) :
    ∃ w reason, determine_winner g T m = some (w, reason) := by
  obtain ⟨sl, hsl⟩ := argmaxFirst_isSome (f := fun r => r.sales_val) hne
  obtain ⟨rl, hrl⟩ := argmaxFirst_isSome (f := calculated_roas) hne
  unfold determine_winner
  rw [hsl, hrl]
  simp only
  split_ifs <;> exact ⟨_, _, rfl⟩

/-- Per-group counts: one KEEP row, the rest NEGATE, one output row per
group row. -/
theorem resultsForTerm_counts (rows : List Row) (T m : ℚ) (term : String)
    (hterm : term ∈ cannibal_terms rows) :
    (resultsForTerm rows T m term).countP (fun r => r.status = Status.KEEP) = 1 ∧
    (resultsForTerm rows T m term).countP (fun r => r.status = Status.NEGATE) =
      (subsetFor rows term).length - 1 ∧
    (resultsForTerm rows T m term).length = (subsetFor rows term).length := by
  have hlen : 1 < (subsetFor rows term).length := (mem_cannibal_terms rows term).mp hterm
  have hne : subsetFor rows term ≠ [] := by
    intro he
    rw [he] at hlen
    simp at hlen
  obtain ⟨w, reason, hw⟩ := determine_winner_isSome hne T m
  have hwmem : w ∈ (subsetFor rows term).map Prod.fst := determine_winner_mem hw
  have hnd := subsetFor_fst_nodup rows term
  unfold resultsForTerm
  rw [hw]
  have hkeepfun : (fun r : ResultRow => decide (r.status = Status.KEEP)) ∘
      annotate term w reason = fun p : Nat × Row => decide (p.1 = w) := by
    funext p
    by_cases h : p.1 = w <;> simp [annotate, h]
  have hnegfun : (fun r : ResultRow => decide (r.status = Status.NEGATE)) ∘
      annotate term w reason = fun p : Nat × Row => !decide (p.1 = w) := by
    funext p
    by_cases h : p.1 = w <;> simp [annotate, h]
  have hkeep : ((subsetFor rows term).map (annotate term w reason)).countP
      (fun r => r.status = Status.KEEP) = 1 := by
    rw [List.countP_map, hkeepfun]
    exact countP_fst_eq_one hnd hwmem
  have htotal := countP_fst_split (subsetFor rows term) w
  refine ⟨hkeep, ?_, List.length_map _ _⟩
  rw [List.countP_map, hnegfun]
  have h1 : (subsetFor rows term).countP (fun p : Nat × Row => decide (p.1 = w)) = 1 :=
    countP_fst_eq_one hnd hwmem
  omega

/-- C5: in every conflict group's block of the action table, exactly
one row has status KEEP (the one at the index `determine_winner`
returned), every other row has status NEGATE, every row of the group
appears exactly once — and over the whole flat output the KEEP rows
number exactly one per conflict term. -/
theorem cannibalization_keep_unique (rows : List Row) (T m : ℚ) (term : String)
    (hterm : term ∈ cannibal_terms rows) :
    ((resultsForTerm rows T m term).countP (fun r => r.status = Status.KEEP) = 1 ∧
     (resultsForTerm rows T m term).countP (fun r => r.status = Status.NEGATE) =
       (subsetFor rows term).length - 1 ∧
     (resultsForTerm rows T m term).length = (subsetFor rows term).length) ∧
    (cannibalization_results rows T m).countP (fun r => r.status = Status.KEEP) =
      (cannibal_terms rows).length := by
  refine ⟨resultsForTerm_counts rows T m term hterm, ?_⟩
  unfold cannibalization_results
  rw [List.flatMap_def, List.countP_flatten, List.map_map]
  have hone : ∀ x ∈ (cannibal_terms rows).map
      (List.countP (fun r => decide (r.status = Status.KEEP)) ∘ resultsForTerm rows T m),
      x = 1 := by
    intro x hx
    rcases List.mem_map.mp hx with ⟨t, ht, rfl⟩
    exact (resultsForTerm_counts rows T m t ht).1
  rw [List.eq_replicate_of_mem hone, List.sum_replicate, List.length_map, smul_eq_mul,
    mul_one]

-- A concrete table with one conflict: two rows share the term "k" with
-- positive orders (the Scenario A data as a table).
def rowsConflict : List Row :=
  [⟨"k", "C1", "G1", MatchType.BROAD, 5, 100, 50⟩,
   ⟨"k", "C2", "G2", MatchType.BROAD, 3, 40, 10⟩]

/-- Witness for C5: on the concrete conflict table the block for "k"
holds exactly one KEEP row and two rows in total, and the flat output
holds one KEEP row per conflict term. -/
theorem cannibalization_keep_unique_witness :
    ((resultsForTerm rowsConflict 100 2 "k").countP
        (fun r => r.status = Status.KEEP) = 1 ∧
     (resultsForTerm rowsConflict 100 2 "k").countP
        (fun r => r.status = Status.NEGATE) = (subsetFor rowsConflict "k").length - 1 ∧
     (resultsForTerm rowsConflict 100 2 "k").length =
        (subsetFor rowsConflict "k").length) ∧
    (cannibalization_results rowsConflict 100 2).countP
        (fun r => r.status = Status.KEEP) = (cannibal_terms rowsConflict).length :=
  cannibalization_keep_unique rowsConflict 100 2 "k"
    ((mem_cannibal_terms rowsConflict "k").mpr (by
      norm_num [subsetFor, sales_df, rowsConflict, List.enum, List.enumFrom]))

/-- C6: the orchestrator groups exactly the rows with positive orders
by exact search-term equality, retains exactly the groups with more
than one row as conflict groups (each conflict term appearing once),
and reports the no-conflict success state exactly when there is no
conflict group. -/
theorem cannibalization_orchestrator_spec (rows : List Row) (T m : ℚ) :
    (∀ term p, p ∈ subsetFor rows term ↔
      p ∈ rows.enum ∧ p.2.orders_val > 0 ∧ p.2.search_term = term) ∧
    (∀ term, term ∈ cannibal_terms rows ↔ 1 < (subsetFor rows term).length) ∧
    (cannibal_terms rows).Nodup ∧
    (cannibalization_tab rows T m = CannibalOutput.successNoConflicts ↔
      cannibal_terms rows = []) := by
  refine ⟨mem_subsetFor rows, mem_cannibal_terms rows, ?_, ?_⟩
  · exact (List.nodup_dedup _).filter _
  · constructor
    · intro h
      by_contra hne
      unfold cannibalization_tab at h
      rw [if_neg hne] at h
      exact CannibalOutput.noConfusion h
    · intro h
      unfold cannibalization_tab
      rw [if_pos h]

/-! ## Harvest filter (tab 2, `src/app.py:246-261`) -/

/-- Character-wise lower-casing, the model of pandas
`.str.lower()`. -/
def lowerStr (s : String) : String :=
  String.mk (s.data.map Char.toLower)

/-- `exact_terms` (`src/app.py:251`): the distinct lower-cased search
terms of the aggregated rows whose match type is EXACT — built from
every EXACT row, with no condition on its orders. -/
def exact_terms (rows : List Row) : List String :=
  ((rows.filter (fun r => r.norm_match = MatchType.EXACT)).map
    (fun r => lowerStr r.search_term)).dedup

/-- `candidates` (`src/app.py:255-258`): aggregated rows with a
non-EXACT match type and at least one order. -/
def candidates (rows : List Row) : List Row :=
  rows.filter (fun r => r.norm_match ≠ MatchType.EXACT ∧ r.orders_val ≥ 1)

/-- `new_opps` (`src/app.py:261`): the candidates whose lower-cased
search term is absent from the exact-match set. -/
def new_opps (rows : List Row) : List Row :=
  (candidates rows).filter (fun r => lowerStr r.search_term ∉ exact_terms rows)

/-- C7: the harvest candidates are exactly the rows with a non-EXACT
match type and at least one order whose lower-cased search term is
absent from the set of lower-cased EXACT-row terms; in particular no
harvest candidate shares its lower-cased term with any EXACT row. -/
theorem harvest_filter_spec :
    (∀ rows r, r ∈ new_opps rows ↔
      r ∈ rows ∧ r.norm_match ≠ MatchType.EXACT ∧ 1 ≤ r.orders_val ∧
        lowerStr r.search_term ∉ exact_terms rows) ∧
    (∀ rows s, s ∈ exact_terms rows ↔
      ∃ e, e ∈ rows ∧ e.norm_match = MatchType.EXACT ∧ lowerStr e.search_term = s) ∧
    (∀ rows e r, e ∈ rows → e.norm_match = MatchType.EXACT → r ∈ new_opps rows →
      lowerStr r.search_term ≠ lowerStr e.search_term) := by
  have hmem : ∀ rows r, r ∈ new_opps rows ↔
      r ∈ rows ∧ r.norm_match ≠ MatchType.EXACT ∧ 1 ≤ r.orders_val ∧
        lowerStr r.search_term ∉ exact_terms rows := by
    intro rows r
    simp only [new_opps, candidates, List.mem_filter, decide_eq_true_eq, ge_iff_le,
      decide_not, Bool.not_eq_true', decide_eq_false_iff_not, and_assoc]
  have hex : ∀ rows s, s ∈ exact_terms rows ↔
      ∃ e, e ∈ rows ∧ e.norm_match = MatchType.EXACT ∧ lowerStr e.search_term = s := by
    intro rows s
    simp only [exact_terms, List.mem_dedup, List.mem_map, List.mem_filter,
      decide_eq_true_eq]
    constructor
    · rintro ⟨e, ⟨he, hm⟩, hs⟩
      exact ⟨e, he, hm, hs⟩
    · rintro ⟨e, he, hm, hs⟩
      exact ⟨e, ⟨he, hm⟩, hs⟩
  refine ⟨hmem, hex, fun rows e r he hme hr hcontra => ?_⟩
  exact ((hmem rows r).mp hr).2.2.2 ((hex rows _).mpr ⟨e, he, hme, hcontra.symm⟩)

-- Scenario C data plus a genuinely new term: "blue shoes" exists as an
-- EXACT row, "Blue Shoes" (BROAD) collides with it case-insensitively,
-- "red shoes" (BROAD) does not.
def rowExactBlue : Row := ⟨"blue shoes", "C1", "G1", MatchType.EXACT, 2, 20, 5⟩
def rowBroadBlue : Row := ⟨"Blue Shoes", "C2", "G2", MatchType.BROAD, 1, 10, 2⟩
def rowBroadRed : Row := ⟨"red shoes", "C2", "G2", MatchType.BROAD, 1, 12, 3⟩
def rowsHarvest : List Row := [rowExactBlue, rowBroadBlue, rowBroadRed]

/-- Witness for C7: "red shoes" is a harvest candidate of the concrete
table, so its lower-cased term differs from the EXACT row's. -/
theorem harvest_filter_spec_witness :
    lowerStr rowBroadRed.search_term ≠ lowerStr rowExactBlue.search_term := by
  exact harvest_filter_spec.2.2 rowsHarvest rowExactBlue rowBroadRed
    (by decide) (by decide) (by decide)

/-- C10: the exact-match exclusion set ignores the EXACT rows' orders:
a candidate whose lower-cased term equals that of an EXACT row with 0
orders is still excluded from the harvest output. -/
theorem harvest_zero_order_exact_still_excludes
    (rows : List Row) (e c : Row)
    (he : e ∈ rows) (hme : e.norm_match = MatchType.EXACT)
    (hord : e.orders_val = 0)
    (hterm : lowerStr c.search_term = lowerStr e.search_term) :
    c ∉ new_opps rows := by
  intro hc
  have h1 : lowerStr c.search_term ∉ exact_terms rows := by
    have := (List.mem_filter.mp hc).2
    simpa using this
  exact h1 (by
    simp only [exact_terms, List.mem_dedup, List.mem_map, List.mem_filter,
      decide_eq_true_eq]
    exact ⟨e, ⟨he, hme⟩, hterm.symm⟩)

-- The same table with the EXACT row's orders zeroed out.
def rowExactBlue0 : Row := ⟨"blue shoes", "C1", "G1", MatchType.EXACT, 0, 0, 5⟩
def rowsHarvest0 : List Row := [rowExactBlue0, rowBroadBlue, rowBroadRed]

/-- Witness for C10: the EXACT row has 0 orders, yet the case-colliding
BROAD row "Blue Shoes" with one order is still excluded. -/
theorem harvest_zero_order_exact_still_excludes_witness :
    rowBroadBlue ∉ new_opps rowsHarvest0 := by
  exact harvest_zero_order_exact_still_excludes rowsHarvest0 rowExactBlue0 rowBroadBlue
    (by decide) (by decide) (by decide) (by decide)

/-! ## Numeric coercion at ingestion (`src/app.py:142-143`) -/

/-- One raw cell of a numeric column as classified by
`pd.to_numeric(..., errors='coerce')`: it either parses to a numeric
value or is unparseable (coerced to NaN). -/
inductive Cell where
  | num : ℚ → Cell
  | unparseable : Cell
deriving DecidableEq

/-- The coercion `pd.to_numeric(df[col], errors='coerce').fillna(0)`
(`src/app.py:143`): a parsed value passes through unchanged, an
unparseable cell becomes 0. The function is total, so no error is
raised or propagated. -/
def coerce_cell : Cell → ℚ
  | Cell.num q => q
  | Cell.unparseable => 0

/-- Counterexample to C8 as stated: a parseable cell holding `-5` is
coerced to `-5`, a negative value — the coercion substitutes 0 only for
unparseable cells and never enforces non-negativity (nor integrality of
orders: `5/2` also passes through). -/
theorem coercion_nonnegative_counterexample :
    coerce_cell (Cell.num (-5)) = -5 ∧ coerce_cell (Cell.num (-5)) < 0 ∧
      coerce_cell (Cell.num (5 / 2)) = 5 / 2 := by
  refine ⟨rfl, ?_, rfl⟩
  norm_num [coerce_cell]

/-- C8 (amended): the coercion silently replaces every unparseable cell
by 0 and never raises (it is a total function); every parseable cell
passes through unchanged, so the resulting values are non-negative
integers only when the parsed input values are. -/
theorem coercion_spec :
    (∀ q, coerce_cell (Cell.num q) = q) ∧ coerce_cell Cell.unparseable = 0 :=
  ⟨fun _ => rfl, rfl⟩
